import Mathlib

/-!
# Verification of the prism overlay stats-resolution and caching subsystem

This file gives a shallow embedding, in Lean 4, of the player-identity
resolution, caching, and settings-mutation code of the prism overlay
repository, and proves (or refutes) the specification claims about it.

The embedded source files are:
* `examples/overlay/get_stats.py` — `denick`, `fetch_bedwars_stats`,
  `get_bedwars_stats`;
* `examples/overlay/behaviour.py` — `set_nickname`, `set_hypixel_api_key`,
  `get_stats_and_winstreak`, `update_settings`;
* `examples/sidelay/stats.py` — `NickedPlayer`, `PlayerStats`.

Modules that the overlay code imports but whose sources are not part of the
repository snapshot (the controller, the player record module, the player
cache and the nick database) are modelled from the specification; each such
definition carries a doc comment starting with `Modelled from the spec:`.

Python dicts are embedded as association lists with unique keys; the three
dict operations used by the code (`d[k]`/`.get`, `d[k] = v`, `.pop(k, None)`)
are `lookupKey`, `setKey` and `removeKey` below.  `setKey` mirrors Python's
in-place update (an existing key keeps its position, a new key is appended),
`removeKey` drops the key.  External provider calls are pure oracle
functions stored in the controller, and every function that talks to a
provider also returns the list of `Call`s it made, so that claims about
"how many provider calls happen" are directly statable.
-/

namespace Prism

/-! ## Dictionaries as association lists -/

/-- Python `d.get(k)` / `d[k]`: first binding of the key, if any. -/
def lookupKey {α : Type} (l : List (String × α)) (k : String) : Option α :=
  match l with
  | [] => none
  | (k', v) :: rest => if k' = k then some v else lookupKey rest k

/-- Python `d[k] = v`: update the existing binding in place, else append. -/
def setKey {α : Type} (l : List (String × α)) (k : String) (v : α) :
    List (String × α) :=
  match l with
  | [] => [(k, v)]
  | (k', v') :: rest =>
    if k' = k then (k, v) :: rest else (k', v') :: setKey rest k v

/-- Python `d.pop(k, None)`: remove any binding of the key. -/
def removeKey {α : Type} (l : List (String × α)) (k : String) :
    List (String × α) :=
  l.filter (fun kv => kv.1 ≠ k)

/-! ## `examples/sidelay/stats.py` — player stat records

`PropertyName` is the `Literal` union of the five property names; stat
values returned by `get_value` are Python ints/floats (including
`float("inf")`) or strings, embedded as `StatValue` with exact rationals
for the finite numbers. -/

namespace Sidelay

/-- The `PropertyName` literal type: four stat names plus `"username"`. -/
inductive PropertyName : Type
  | stars | fkdr | wlr | winstreak | username
  deriving DecidableEq, Repr

/-- Value returned by `get_value`: a finite number, `float("inf")`, or a
string.  Finite Python numbers are embedded as exact rationals. -/
inductive StatValue : Type
  | num (q : ℚ)
  | inf
  | str (s : String)
  deriving DecidableEq, Repr

/-- Python `<` on the values at play: finite numbers compare as rationals
and every finite number is less than `float("inf")`; comparisons the code
never performs (strings against numbers) are `false`. -/
def StatValue.lt : StatValue → StatValue → Bool
  | .num x, .num y => x < y
  | .num _, .inf => true
  | _, _ => false

/-- The sidelay `PlayerStats` dataclass: stats of a single known player. -/
structure PlayerStats : Type where
  fkdr : ℚ
  stars : ℚ
  wlr : ℚ
  winstreak : ℤ
  username : String
  nick : Option String
  deriving DecidableEq, Repr

/-- `PlayerStats.nicked` property: always `False`. -/
def PlayerStats.nicked (_p : PlayerStats) : Bool := false

/-- `PlayerStats.get_value`: the stored stat, or for `"username"` the
username with the nick in parentheses appended when present. -/
def PlayerStats.get_value (p : PlayerStats) (name : PropertyName) :
    StatValue :=
  match name with
  | .fkdr => .num p.fkdr
  | .stars => .num p.stars
  | .wlr => .num p.wlr
  | .winstreak => .num (p.winstreak : ℚ)
  | .username =>
    .str (p.username ++ (match p.nick with
      | some n => " (" ++ n ++ ")"
      | none => ""))

/-- The sidelay `NickedPlayer` dataclass: a player assumed to be nicked,
carrying only the observed username. -/
structure NickedPlayer : Type where
  username : String
  deriving DecidableEq, Repr

/-- `NickedPlayer.nicked` property: always `True`. -/
def NickedPlayer.nicked (_p : NickedPlayer) : Bool := true

/-- `NickedPlayer.get_value`: `float("inf")` for every property name. -/
def NickedPlayer.get_value (_p : NickedPlayer) (_name : PropertyName) :
    StatValue := .inf

/-- `NickedPlayer.get_string`: the username for `"username"`, otherwise
the string `"unknown"`. -/
def NickedPlayer.get_string (p : NickedPlayer) (name : PropertyName) :
    String :=
  match name with
  | .username => p.username
  | _ => "unknown"

end Sidelay

/-! ## The overlay data model

The overlay code (`examples/overlay/get_stats.py`, `behaviour.py`) imports
`examples.overlay.player`, `examples.overlay.controller`, a player cache
and a nick database whose source files are not part of the repository
snapshot; those are modelled from the specification below, each marked as
such. -/

namespace Overlay

/-- Modelled from the spec: the raw stats record returned by the stats
provider (`controller.get_player_data`).  The spec lists the display name
and the stats fields — star level, kill/death ratio, win/loss ratio, and a
winstreak that may carry an explicit "unknown" marker (`none`). -/
structure PlayerData : Type where
  displayname : String
  stars : ℚ
  fkdr : ℚ
  wlr : ℚ
  winstreak : Option ℤ
  deriving DecidableEq, Repr

/-- Modelled from the spec: the `KnownPlayer` record of the missing
`examples.overlay.player` module — confirmed identity with uuid, username,
stats fields (winstreak with an explicit "unknown" marker and an accuracy
flag), and the optional nickname the player is hiding behind. -/
structure KnownPlayer : Type where
  username : String
  uuid : String
  nick : Option String
  stars : ℚ
  fkdr : ℚ
  wlr : ℚ
  winstreak : Option ℤ
  winstreaks_accurate : Bool
  deriving DecidableEq, Repr

/-- Modelled from the spec: `KnownPlayer.is_missing_winstreaks` — whether
the record carries the explicit "winstreak unknown" marker. -/
def KnownPlayer.is_missing_winstreaks (p : KnownPlayer) : Bool :=
  p.winstreak.isNone

/-- Modelled from the spec: `KnownPlayer.aliases` — the historical aliases
of the player: the true username, plus the current nickname when hiding
behind one. -/
def KnownPlayer.aliases (p : KnownPlayer) : List String :=
  p.username :: (match p.nick with
    | some n => [n]
    | none => [])

/-- Modelled from the spec: `KnownPlayer.update_winstreaks` — replace the
winstreak estimate and the accuracy flag, used for winstreak backfill. -/
def KnownPlayer.update_winstreaks (p : KnownPlayer) (winstreak : Option ℤ)
    (winstreaks_accurate : Bool) : KnownPlayer :=
  { p with winstreak := winstreak,
           winstreaks_accurate := winstreaks_accurate }

/-- The overlay `NickedPlayer`: identity could not be resolved; carries
only the observed nickname (`NickedPlayer(nick=username)`). -/
structure NickedPlayer : Type where
  nick : String
  deriving DecidableEq, Repr

/-- Result type of the resolver: `KnownPlayer | NickedPlayer`. -/
inductive Player : Type
  | known (p : KnownPlayer)
  | nicked (p : NickedPlayer)
  deriving DecidableEq, Repr

/-- Modelled from the spec: a cache entry is a resolved player record or
the `PendingPlayer` placeholder installed while a fetch is in flight. -/
inductive CachedPlayer : Type
  | known (p : KnownPlayer)
  | nicked (p : NickedPlayer)
  | pending
  deriving DecidableEq, Repr

/-- Coercion of a resolver result into a cache entry. -/
def CachedPlayer.ofPlayer : Player → CachedPlayer
  | .known p => .known p
  | .nicked p => .nicked p

/-- Modelled from the spec: `create_known_player` of the missing player
module wraps the fetched provider record as a Known record with the given
username, uuid and optional nick. -/
def create_known_player (playerdata : PlayerData) (username : String)
    (uuid : String) (nick : Option String) : KnownPlayer :=
  { username := username
    uuid := uuid
    nick := nick
    stars := playerdata.stars
    fkdr := playerdata.fkdr
    wlr := playerdata.wlr
    winstreak := playerdata.winstreak
    winstreaks_accurate := playerdata.winstreak.isSome }

/-- A `NickValue` of the settings: resolved uuid plus a human comment. -/
structure NickValue : Type where
  uuid : String
  comment : String
  deriving DecidableEq, Repr

/-- The settings fields the embedded code touches (`settings.py` is not in
the snapshot; fields are as used by `behaviour.py` and the settings
tests): the two API keys, the secondary-source flag and the persisted
nickname binding table `known_nicks`. -/
structure Settings : Type where
  hypixel_api_key : String
  antisniper_api_key : Option String
  use_antisniper_api : Bool
  known_nicks : List (String × NickValue)
  deriving DecidableEq, Repr

/-- The `SettingsDict` passed to `update_settings`: same fields as the
stored settings. -/
structure SettingsDict : Type where
  hypixel_api_key : String
  antisniper_api_key : Option String
  use_antisniper_api : Bool
  known_nicks : List (String × NickValue)
  deriving DecidableEq, Repr

/-- `Settings.update_from`: replace every field with the new dict's. -/
def Settings.update_from (_s : Settings) (d : SettingsDict) : Settings :=
  { hypixel_api_key := d.hypixel_api_key
    antisniper_api_key := d.antisniper_api_key
    use_antisniper_api := d.use_antisniper_api
    known_nicks := d.known_nicks }

/-- Modelled from the spec: the nick database module is not in the
snapshot.  It holds the in-memory default table — kept in sync with the
persisted `known_nicks` bindings by the mutation protocol — and the
fallback tables seeded at startup. -/
structure NickDatabase : Type where
  default_database : List (String × String)
  fallback_database : List (String × String)
  deriving DecidableEq, Repr

/-- Modelled from the spec: `nick_database.get_default` consults only the
default table (the user's persisted denicks). -/
def NickDatabase.get_default (db : NickDatabase) (nick : String) :
    Option String :=
  lookupKey db.default_database nick

/-- Modelled from the spec: `nick_database.get` consults every table in
order, the default table first, then the fallback tables. -/
def NickDatabase.get (db : NickDatabase) (nick : String) : Option String :=
  match lookupKey db.default_database nick with
  | some uuid => some uuid
  | none => lookupKey db.fallback_database nick

/-- One outbound consultation made during resolution: a lookup against the
identity provider, one of the three denick sources, the stats provider,
or the winstreak-estimate provider. -/
inductive Call : Type
  | getUuid (username : String)
  | nickDbDefault (nick : String)
  | denickApi (nick : String)
  | nickDbGet (nick : String)
  | getPlayerData (uuid : String)
  | getWinstreaks (uuid : String)
  deriving DecidableEq, Repr

/-- Modelled from the spec: the `OverlayController` — pure oracles for the
external providers (identity lookup, API denick, stats fetch, winstreak
estimation; a provider failure is `none`, per the spec connectivity errors
are treated as not-found), plus the owned mutable state: the player cache,
the nick database, the settings, and the flags the mutation protocol
touches.  `get_estimated_winstreaks` returns the estimate — `none` being
the `MISSING_WINSTREAKS` failure sentinel — together with the accuracy
flag. -/
structure Controller : Type where
  get_uuid : String → Option String
  denick_api : String → Option String
  get_player_data : String → Option PlayerData
  get_estimated_winstreaks : String → Option ℤ × Bool
  player_cache : List (String × CachedPlayer)
  nick_database : NickDatabase
  settings : Settings
  hypixel_key_in_use : String
  api_key_invalid : Bool
  redraw_event : Bool

/-! ## `examples/overlay/get_stats.py` -/

/-- `denick` from `get_stats.py`: try the user's persisted denicks
(`nick_database.get_default`), then the antisniper API
(`controller.denick`), then the full database lookup
(`nick_database.get`), returning on the first hit.  Also returns the list
of sources consulted, in order. -/
def denick (nick : String) (c : Controller) : Option String × List Call :=
  match c.nick_database.get_default nick with
  | some uuid => (some uuid, [.nickDbDefault nick])
  | none =>
    match c.denick_api nick with
    | some uuid => (some uuid, [.nickDbDefault nick, .denickApi nick])
    | none =>
      (c.nick_database.get nick,
        [.nickDbDefault nick, .denickApi nick, .nickDbGet nick])

/-- `fetch_bedwars_stats` from `get_stats.py`: resolve the username with
the identity provider, fall back to `denick` on a miss, fetch the player
data, retry `denick` once when a non-denicked lookup got no data, and
produce a Known or Nicked record.  Also returns the trace of provider
consultations, in order. -/
def fetch_bedwars_stats (username : String) (c : Controller) :
    Player × List Call :=
  let t0 := [Call.getUuid username]
  let step1 : Option String × Option String × Bool × List Call :=
    match c.get_uuid username with
    | some uuid => (some uuid, none, false, t0)
    | none =>
      match denick username c with
      | (some uuid, td) => (some uuid, some username, true, t0 ++ td)
      | (none, td) => (none, none, false, t0 ++ td)
  match step1 with
  | (none, _, _, t1) => (.nicked ⟨username⟩, t1)
  | (some uuid, nick, denicked, t1) =>
    let t2 := t1 ++ [Call.getPlayerData uuid]
    let step2 : String × Option String × Option PlayerData × List Call :=
      match denicked, c.get_player_data uuid with
      | false, none =>
        match denick username c with
        | (some uuid2, td) =>
          (uuid2, some username, c.get_player_data uuid2,
            t2 ++ td ++ [Call.getPlayerData uuid2])
        | (none, td) => (uuid, nick, none, t2 ++ td)
      | _, pd => (uuid, nick, pd, t2)
    match step2 with
    | (_, _, none, t3) => (.nicked ⟨username⟩, t3)
    | (uuid3, nick3, some playerdata, t3) =>
      let username3 := match nick3 with
        | some _ => playerdata.displayname
        | none => username
      (.known (create_known_player playerdata username3 uuid3 nick3), t3)

/-- `get_bedwars_stats` from `get_stats.py`: return the cached record on a
non-pending cache hit, otherwise fetch, store the record under the true
username with the nick cleared when de-anonymization occurred, and store
it under the queried username. -/
def get_bedwars_stats (username : String) (c : Controller) :
    Player × Controller × List Call :=
  match lookupKey c.player_cache username with
  | some (.known p) => (.known p, c, [])
  | some (.nicked p) => (.nicked p, c, [])
  | _ =>
    let (player, t) := fetch_bedwars_stats username c
    let cache1 := match player with
      | .known p =>
        match p.nick with
        | some _ =>
          setKey c.player_cache p.username (.known { p with nick := none })
        | none => c.player_cache
      | .nicked _ => c.player_cache
    ( player,
      { c with player_cache := setKey cache1 username (.ofPlayer player) },
      t )

/-! ## The player cache operations (`behaviour.py` collaborators) -/

/-- Modelled from the spec: `player_cache.uncache_player` —
`invalidate(key)` removes the entry for the key. -/
def uncache_player (cache : List (String × CachedPlayer)) (key : String) :
    List (String × CachedPlayer) :=
  removeKey cache key

/-- Modelled from the spec: `player_cache.update_cached_player` — atomic
read-modify-write applying the Known-player mutator when the entry for the
key is a Known record, and doing nothing otherwise. -/
def update_cached_player (cache : List (String × CachedPlayer))
    (key : String) (f : KnownPlayer → KnownPlayer) :
    List (String × CachedPlayer) :=
  match lookupKey cache key with
  | some (.known p) => setKey cache key (.known (f p))
  | _ => cache

/-! ## `examples/overlay/behaviour.py` -/

/-- `set_hypixel_api_key` from `behaviour.py`: point the download threads
at the new key, clear the invalid-key flag, persist the key in the
settings, and clear the whole stats cache. -/
def set_hypixel_api_key (new_key : String) (c : Controller) : Controller :=
  { c with hypixel_key_in_use := new_key
           api_key_invalid := false
           settings := { c.settings with hypixel_api_key := new_key }
           player_cache := [] }

/-- `set_nickname` from `behaviour.py`: rebind or clear a nickname.
Resolve the username to a uuid (clearing on failure), find the prior nick
bound to the same uuid in the persisted `known_nicks`, remove it and add
the new binding in both the persisted table and the default nick-database
table, drop the cache entries for the old and the new nick, and request a
redraw. -/
def set_nickname (username : Option String) (nick : String)
    (c : Controller) : Controller :=
  let first : Option String × Option String :=
    match username with
    | some uname =>
      match c.get_uuid uname with
      | some uuid => (some uuid, none)
      | none => (none, some nick)
    | none => (none, some nick)
  let uuid := first.1
  let second : Option NickValue × Option String :=
    match uuid, username with
    | some u, some uname =>
      match c.settings.known_nicks.find? (fun kv => kv.2.uuid = u) with
      | some kv => (some kv.2, some kv.1)
      | none => (some { uuid := u, comment := uname }, none)
    | _, _ => (none, first.2)
  let new_nick_value := second.1
  let old_nick := second.2
  let kn1 := match old_nick with
    | some onk => removeKey c.settings.known_nicks onk
    | none => c.settings.known_nicks
  let kn2 := match new_nick_value with
    | some v => setKey kn1 nick v
    | none => kn1
  let db1 := match old_nick with
    | some onk => removeKey c.nick_database.default_database onk
    | none => c.nick_database.default_database
  let db2 := match uuid with
    | some u => setKey db1 nick u
    | none => db1
  let cache1 := match old_nick with
    | some onk => uncache_player c.player_cache onk
    | none => c.player_cache
  let cache2 := uncache_player cache1 nick
  { c with settings := { c.settings with known_nicks := kn2 }
           nick_database := { c.nick_database with default_database := db2 }
           player_cache := cache2
           redraw_event := true }

/-- `get_stats_and_winstreak` from `behaviour.py`: resolve and cache the
player, announce completion, and when the record is Known with missing
winstreaks make one best-effort winstreak-estimate call; on the
`MISSING_WINSTREAKS` failure sentinel skip silently, on success update the
cached record under every alias and announce completion again.  Returns
the final controller, the full provider-call trace, and the usernames
pushed onto the completion queue. -/
def get_stats_and_winstreak (username : String) (c : Controller) :
    Controller × List Call × List String :=
  let fetched := get_bedwars_stats username c
  let player := fetched.1
  let c1 := fetched.2.1
  let t := fetched.2.2
  match player with
  | .known p =>
    if p.is_missing_winstreaks then
      let est := c1.get_estimated_winstreaks p.uuid
      let t2 := t ++ [Call.getWinstreaks p.uuid]
      match est.1 with
      | none => (c1, t2, [username])
      | some w =>
        let cache2 := p.aliases.foldl
          (fun cache a => update_cached_player cache a
            (fun q => q.update_winstreaks (some w) est.2))
          c1.player_cache
        ({ c1 with player_cache := cache2 }, t2, [username, username])
    else (c1, t, [username])
  | .nicked _ => (c1, t, [username])

/-- `update_settings` from `behaviour.py`: diff the credentials and the
nickname bindings against the stored settings, clear the whole cache on a
primary-key change or a potential antisniper change, otherwise drop
exactly the added, removed and value-changed nicknames from the cache;
sync the default nick-database table, request a redraw and store the new
settings. -/
def update_settings (new_settings : SettingsDict) (c : Controller) :
    Controller :=
  let hypixel_api_key_changed : Bool :=
    new_settings.hypixel_api_key != c.settings.hypixel_api_key
  let antisniper_api_key_changed : Bool :=
    new_settings.antisniper_api_key != c.settings.antisniper_api_key
  let use_antisniper_api_changed : Bool :=
    new_settings.use_antisniper_api != c.settings.use_antisniper_api
  let potential_antisniper_updates : Bool :=
    (antisniper_api_key_changed && new_settings.use_antisniper_api) ||
      (use_antisniper_api_changed && new_settings.antisniper_api_key.isSome)
  let uuid_changed : String → Bool := fun nickname =>
    lookupKey new_settings.known_nicks nickname !=
      lookupKey c.settings.known_nicks nickname
  let new_nicknames := new_settings.known_nicks.map Prod.fst
  let old_nicknames := c.settings.known_nicks.map Prod.fst
  let added_nicknames :=
    new_nicknames.filter (fun n => !old_nicknames.contains n)
  let removed_nicknames :=
    old_nicknames.filter (fun n => !new_nicknames.contains n)
  let updated_nicknames :=
    (new_nicknames.filter (fun n => old_nicknames.contains n)).filter
      uuid_changed
  let cache1 :=
    if hypixel_api_key_changed || potential_antisniper_updates then
      ([] : List (String × CachedPlayer))
    else
      let cacheA :=
        (added_nicknames ++ removed_nicknames).foldl uncache_player
          c.player_cache
      updated_nicknames.foldl uncache_player cacheA
  let db1 :=
    removed_nicknames.foldl removeKey c.nick_database.default_database
  let db2 :=
    (added_nicknames ++ updated_nicknames).foldl
      (fun db n =>
        match lookupKey new_settings.known_nicks n with
        | some v => setKey db n v.uuid
        | none => db)
      db1
  { c with player_cache := cache1
           nick_database := { c.nick_database with default_database := db2 }
           redraw_event := true
           settings := c.settings.update_from new_settings }

end Overlay

/-! ## Helper counters and lemmas over call traces -/

namespace Overlay

/-- Number of de-anonymization attempts in a trace: every `denick` run
consults the default table exactly once, first. -/
def countDenickAttempts (t : List Call) : Nat :=
  (t.filter fun call => match call with
    | .nickDbDefault _ => true
    | _ => false).length

/-- Number of stats-provider fetches in a trace. -/
def countStatsFetches (t : List Call) : Nat :=
  (t.filter fun call => match call with
    | .getPlayerData _ => true
    | _ => false).length

/-- Number of winstreak-estimate calls in a trace. -/
def countWinstreakCalls (t : List Call) : Nat :=
  (t.filter fun call => match call with
    | .getWinstreaks _ => true
    | _ => false).length

/-- A provider record used to instantiate the theorems concretely. -/
def demoPlayerData : PlayerData :=
  { displayname := "Player1", stars := 10, fkdr := 2, wlr := 1,
    winstreak := some 5 }

/-- A minimal concrete controller whose providers always miss, used (with
field updates) to instantiate the theorems concretely. -/
def baseController : Controller :=
  { get_uuid := fun _ => none
    denick_api := fun _ => none
    get_player_data := fun _ => none
    get_estimated_winstreaks := fun _ => (none, false)
    player_cache := []
    nick_database := ⟨[], []⟩
    settings := ⟨"key", none, false, []⟩
    hypixel_key_in_use := "key"
    api_key_invalid := false
    redraw_event := false }

theorem denick_trace_counts (n : String) (c : Controller) :
    countDenickAttempts (denick n c).2 = 1 ∧
    countStatsFetches (denick n c).2 = 0 ∧
    countWinstreakCalls (denick n c).2 = 0 := by
  unfold denick
  rcases c.nick_database.get_default n with _ | u
  · rcases c.denick_api n with _ | u
    · simp [countDenickAttempts, countStatsFetches, countWinstreakCalls,
        List.filter]
    · simp [countDenickAttempts, countStatsFetches, countWinstreakCalls,
        List.filter]
  · simp [countDenickAttempts, countStatsFetches, countWinstreakCalls,
      List.filter]

end Overlay

/-! ## Dictionary lemmas -/

theorem lookupKey_setKey_self {α : Type} (l : List (String × α)) (k : String)
    (v : α) : lookupKey (setKey l k v) k = some v := by
  induction l with
  | nil => simp [setKey, lookupKey]
  | cons hd tl ih =>
    by_cases h : hd.1 = k
    · simp [setKey, h, lookupKey]
    · simp only [setKey]
      rw [if_neg h]
      simpa [lookupKey, h] using ih

theorem lookupKey_setKey_ne {α : Type} (l : List (String × α)) (k k' : String)
    (v : α) (h : k ≠ k') : lookupKey (setKey l k v) k' = lookupKey l k' := by
  induction l with
  | nil => simp [setKey, lookupKey, h]
  | cons hd tl ih =>
    by_cases hhd : hd.1 = k
    · simp [setKey, hhd, lookupKey, h]
    · simp only [setKey]
      rw [if_neg hhd]
      by_cases hhd' : hd.1 = k'
      · simp [lookupKey, hhd']
      · simpa [lookupKey, hhd'] using ih

theorem lookupKey_removeKey_self {α : Type} (l : List (String × α))
    (k : String) : lookupKey (removeKey l k) k = none := by
  induction l with
  | nil => simp [removeKey, lookupKey]
  | cons hd tl ih =>
    by_cases h : hd.1 = k
    · simpa [removeKey, h, lookupKey] using ih
    · simpa [removeKey, h, lookupKey, List.filter] using ih

theorem lookupKey_removeKey_ne {α : Type} (l : List (String × α))
    (k k' : String) (h : k ≠ k') :
    lookupKey (removeKey l k) k' = lookupKey l k' := by
  induction l with
  | nil => simp [removeKey, lookupKey]
  | cons hd tl ih =>
    by_cases hhd : hd.1 = k
    · have hne : hd.1 ≠ k' := by
        rw [hhd]; exact h
      simpa [removeKey, hhd, lookupKey, hne, h, List.filter] using ih
    · by_cases hhd' : hd.1 = k'
      · have hne : ¬(k' = k) := fun hk => h hk.symm
        simp [removeKey, List.filter, hhd, hhd', lookupKey, hne]
      · simpa [removeKey, List.filter, hhd, hhd', lookupKey] using ih


/-! ## Claims -/

/-- C10: for every stat name among stars, fkdr, wlr and winstreak,
`NickedPlayer.get_value` returns positive infinity, and
`NickedPlayer.get_string` returns `"unknown"` for every property except
`"username"`, for which it returns the observed nickname — so a nicked
player always has a renderable value and sorts above any known player's
finite stats. -/
theorem claim_C10_nicked_player_values (p : Sidelay.NickedPlayer) :
    (p.get_value .stars = .inf ∧ p.get_value .fkdr = .inf ∧
      p.get_value .wlr = .inf ∧ p.get_value .winstreak = .inf) ∧
    p.get_string .username = p.username ∧
    (p.get_string .stars = "unknown" ∧ p.get_string .fkdr = "unknown" ∧
      p.get_string .wlr = "unknown" ∧
      p.get_string .winstreak = "unknown") ∧
    (∀ ps : Sidelay.PlayerStats,
      Sidelay.StatValue.lt (ps.get_value .stars) (p.get_value .stars) = true ∧
      Sidelay.StatValue.lt (ps.get_value .fkdr) (p.get_value .fkdr) = true ∧
      Sidelay.StatValue.lt (ps.get_value .wlr) (p.get_value .wlr) = true ∧
      Sidelay.StatValue.lt (ps.get_value .winstreak) (p.get_value .winstreak)
        = true) :=
  ⟨⟨rfl, rfl, rfl, rfl⟩, rfl, ⟨rfl, rfl, rfl, rfl⟩,
    fun _ => ⟨rfl, rfl, rfl, rfl⟩⟩

/-- C6: after a credential update with a changed API key
(`set_hypixel_api_key`, or `update_settings` with a changed hypixel key),
the entire player cache is cleared: for every username, the next cache get
returns none. -/
theorem claim_C6_key_change_clears_cache (new_key : String)
    (c : Overlay.Controller) (u : String) (ns : Overlay.SettingsDict)
    (hkey : ns.hypixel_api_key ≠ c.settings.hypixel_api_key) :
    lookupKey (Overlay.set_hypixel_api_key new_key c).player_cache u
        = none ∧
    lookupKey (Overlay.update_settings ns c).player_cache u = none := by
  constructor
  · rfl
  · have hb : (ns.hypixel_api_key != c.settings.hypixel_api_key) = true :=
      bne_iff_ne.mpr hkey
    simp only [Overlay.update_settings, hb, Bool.true_or, if_pos]
    rfl

/-- Witness for C6 at a concrete controller and settings dict. -/
theorem claim_C6_key_change_clears_cache_witness :
    Overlay.SettingsDict.hypixel_api_key
        ⟨"new-key", none, false, []⟩ ≠
      Overlay.Settings.hypixel_api_key
        (Overlay.Controller.settings
          ⟨fun _ => none, fun _ => none, fun _ => none,
            fun _ => (none, false),
            [("CachedGuy", Overlay.CachedPlayer.pending)],
            ⟨[], []⟩, ⟨"old-key", none, false, []⟩, "old-key", false,
            false⟩) ∧
    lookupKey
        (Overlay.set_hypixel_api_key "new-key"
          ⟨fun _ => none, fun _ => none, fun _ => none,
            fun _ => (none, false),
            [("CachedGuy", Overlay.CachedPlayer.pending)],
            ⟨[], []⟩, ⟨"old-key", none, false, []⟩, "old-key", false,
            false⟩).player_cache "CachedGuy" = none ∧
    lookupKey
        (Overlay.update_settings ⟨"new-key", none, false, []⟩
          ⟨fun _ => none, fun _ => none, fun _ => none,
            fun _ => (none, false),
            [("CachedGuy", Overlay.CachedPlayer.pending)],
            ⟨[], []⟩, ⟨"old-key", none, false, []⟩, "old-key", false,
            false⟩).player_cache "CachedGuy" = none := by
  refine ⟨by decide, ?_⟩
  exact claim_C6_key_change_clears_cache "new-key" _ "CachedGuy" _ (by decide)

/-- C1: for every username whose direct identity-provider lookup returns
no uuid, the resolver attempts de-anonymization by consulting, in order:
the persisted nickname bindings (the default table, kept in sync with the
persisted `known_nicks`), then the API-backed denick call, then the
fallback binding table, short-circuiting on the first source that yields a
uuid. -/
theorem claim_C1_denick_fallback_order (n : String)
    (c : Overlay.Controller) :
    (∀ u, lookupKey c.nick_database.default_database n = some u →
      Overlay.denick n c = (some u, [.nickDbDefault n])) ∧
    (∀ u, lookupKey c.nick_database.default_database n = none →
      c.denick_api n = some u →
      Overlay.denick n c = (some u, [.nickDbDefault n, .denickApi n])) ∧
    (lookupKey c.nick_database.default_database n = none →
      c.denick_api n = none →
      Overlay.denick n c
        = (lookupKey c.nick_database.fallback_database n,
            [.nickDbDefault n, .denickApi n, .nickDbGet n])) ∧
    (c.get_uuid n = none →
      ∃ rest, (Overlay.fetch_bedwars_stats n c).2
        = Overlay.Call.getUuid n :: ((Overlay.denick n c).2 ++ rest)) := by
  refine ⟨?_, ?_, ?_, ?_⟩
  · intro u hdef
    simp [Overlay.denick, Overlay.NickDatabase.get_default, hdef]
  · intro u hdef hapi
    simp [Overlay.denick, Overlay.NickDatabase.get_default, hdef, hapi]
  · intro hdef hapi
    simp [Overlay.denick, Overlay.NickDatabase.get_default,
      Overlay.NickDatabase.get, hdef, hapi]
  · intro hu
    rcases hd : Overlay.denick n c with ⟨dres, dt⟩
    rcases dres with _ | uuid
    · refine ⟨[], ?_⟩
      simp [Overlay.fetch_bedwars_stats, hu, hd]
    · refine ⟨[Overlay.Call.getPlayerData uuid], ?_⟩
      rcases hpd : c.get_player_data uuid with _ | pd
      · simp [Overlay.fetch_bedwars_stats, hu, hd, hpd]
      · simp [Overlay.fetch_bedwars_stats, hu, hd, hpd]

/-- Witness for C1 at concrete controllers exercising each source. -/
theorem claim_C1_denick_fallback_order_witness :
    Overlay.denick "Nick"
        { Overlay.baseController with
            nick_database := ⟨[("Nick", "u1")], []⟩ }
      = (some "u1", [.nickDbDefault "Nick"]) ∧
    Overlay.denick "Nick"
        { Overlay.baseController with
            denick_api := fun n => if n = "Nick" then some "u2" else none }
      = (some "u2", [.nickDbDefault "Nick", .denickApi "Nick"]) ∧
    Overlay.denick "Nick"
        { Overlay.baseController with
            nick_database := ⟨[], [("Nick", "u3")]⟩ }
      = (some "u3",
          [.nickDbDefault "Nick", .denickApi "Nick", .nickDbGet "Nick"]) ∧
    (∃ rest, (Overlay.fetch_bedwars_stats "Nick" Overlay.baseController).2
      = Overlay.Call.getUuid "Nick"
          :: ((Overlay.denick "Nick" Overlay.baseController).2 ++ rest)) := by
  refine ⟨?_, ?_, ?_, ?_⟩
  · exact (claim_C1_denick_fallback_order "Nick" _).1 "u1" (by decide)
  · exact (claim_C1_denick_fallback_order "Nick" _).2.1 "u2" (by decide)
      (by decide)
  · exact (claim_C1_denick_fallback_order "Nick" _).2.2.1 (by decide)
      (by decide)
  · exact (claim_C1_denick_fallback_order "Nick" _).2.2.2 (by decide)

/-- C3: for every username for which both the direct identity lookup and
every de-anonymization source fail, or for which stats remain unavailable
after the one retry, the resolver returns a Nicked placeholder carrying
the raw input username as its nick; the resolver is a total function into
`KnownPlayer | NickedPlayer`, so no exception reaches its caller. -/
theorem claim_C3_resolution_failure_nicked (u : String)
    (c : Overlay.Controller) :
    ((∃ kp, (Overlay.fetch_bedwars_stats u c).1 = .known kp) ∨
      (Overlay.fetch_bedwars_stats u c).1 = .nicked ⟨u⟩) ∧
    (c.get_uuid u = none → (Overlay.denick u c).1 = none →
      (Overlay.fetch_bedwars_stats u c).1 = .nicked ⟨u⟩) ∧
    (∀ uuid2, c.get_uuid u = none → (Overlay.denick u c).1 = some uuid2 →
      c.get_player_data uuid2 = none →
      (Overlay.fetch_bedwars_stats u c).1 = .nicked ⟨u⟩) ∧
    (∀ uuid, c.get_uuid u = some uuid → c.get_player_data uuid = none →
      (Overlay.denick u c).1 = none →
      (Overlay.fetch_bedwars_stats u c).1 = .nicked ⟨u⟩) ∧
    (∀ uuid uuid2, c.get_uuid u = some uuid →
      c.get_player_data uuid = none →
      (Overlay.denick u c).1 = some uuid2 →
      c.get_player_data uuid2 = none →
      (Overlay.fetch_bedwars_stats u c).1 = .nicked ⟨u⟩) := by
  refine ⟨?_, ?_, ?_, ?_, ?_⟩
  · rcases hu : c.get_uuid u with _ | uuid
    · rcases hd : Overlay.denick u c with ⟨dres, dt⟩
      rcases dres with _ | uuid2
      · right; simp [Overlay.fetch_bedwars_stats, hu, hd]
      · rcases hpd : c.get_player_data uuid2 with _ | pd
        · right; simp [Overlay.fetch_bedwars_stats, hu, hd, hpd]
        · refine Or.inl
            ⟨Overlay.create_known_player pd pd.displayname uuid2 (some u), ?_⟩
          simp [Overlay.fetch_bedwars_stats, hu, hd, hpd]
    · rcases hpd : c.get_player_data uuid with _ | pd
      · rcases hd : Overlay.denick u c with ⟨dres, dt⟩
        rcases dres with _ | uuid2
        · right; simp [Overlay.fetch_bedwars_stats, hu, hd, hpd]
        · rcases hpd2 : c.get_player_data uuid2 with _ | pd2
          · right; simp [Overlay.fetch_bedwars_stats, hu, hd, hpd, hpd2]
          · refine Or.inl
              ⟨Overlay.create_known_player pd2 pd2.displayname uuid2 (some u),
                ?_⟩
            simp [Overlay.fetch_bedwars_stats, hu, hd, hpd, hpd2]
      · refine Or.inl ⟨Overlay.create_known_player pd u uuid none, ?_⟩
        simp [Overlay.fetch_bedwars_stats, hu, hpd]
  · intro hu hd0
    rcases hd : Overlay.denick u c with ⟨dres, dt⟩
    rw [hd] at hd0
    simp only at hd0
    subst hd0
    simp [Overlay.fetch_bedwars_stats, hu, hd]
  · intro uuid2 hu hd0 hpd
    rcases hd : Overlay.denick u c with ⟨dres, dt⟩
    rw [hd] at hd0
    simp only at hd0
    subst hd0
    simp [Overlay.fetch_bedwars_stats, hu, hd, hpd]
  · intro uuid hu hpd hd0
    rcases hd : Overlay.denick u c with ⟨dres, dt⟩
    rw [hd] at hd0
    simp only at hd0
    subst hd0
    simp [Overlay.fetch_bedwars_stats, hu, hd, hpd]
  · intro uuid uuid2 hu hpd hd0 hpd2
    rcases hd : Overlay.denick u c with ⟨dres, dt⟩
    rw [hd] at hd0
    simp only at hd0
    subst hd0
    simp [Overlay.fetch_bedwars_stats, hu, hd, hpd, hpd2]

/-- Witness for C3: on the always-missing base controller the resolver
returns the Nicked placeholder for the raw username. -/
theorem claim_C3_resolution_failure_nicked_witness :
    (Overlay.fetch_bedwars_stats "SomeNick" Overlay.baseController).1
      = .nicked ⟨"SomeNick"⟩ := by
  exact (claim_C3_resolution_failure_nicked "SomeNick"
    Overlay.baseController).2.1 (by decide) (by decide)

/-- C2: for every resolution in which the identity provider returned a
uuid without de-anonymization and the stats fetch returns no data, the
resolver re-attempts de-anonymization exactly once; if the retry yields a
uuid it refetches stats once with the newly discovered id, and no further
retry happens if the second fetch also returns no data. -/
theorem claim_C2_retry_denick_once (u uuid : String)
    (c : Overlay.Controller) (hu : c.get_uuid u = some uuid)
    (hpd : c.get_player_data uuid = none) :
    Overlay.countDenickAttempts (Overlay.fetch_bedwars_stats u c).2 = 1 ∧
    (∀ uuid2, (Overlay.denick u c).1 = some uuid2 →
      Overlay.countStatsFetches (Overlay.fetch_bedwars_stats u c).2 = 2 ∧
      (Overlay.fetch_bedwars_stats u c).2
        = [Overlay.Call.getUuid u, Overlay.Call.getPlayerData uuid]
            ++ (Overlay.denick u c).2
            ++ [Overlay.Call.getPlayerData uuid2] ∧
      (c.get_player_data uuid2 = none →
        (Overlay.fetch_bedwars_stats u c).1 = .nicked ⟨u⟩)) ∧
    ((Overlay.denick u c).1 = none →
      Overlay.countStatsFetches (Overlay.fetch_bedwars_stats u c).2 = 1 ∧
      (Overlay.fetch_bedwars_stats u c).1 = .nicked ⟨u⟩) := by
  rcases hdef : c.nick_database.get_default u with _ | du
  · rcases hapi : c.denick_api u with _ | du
    · rcases hget : c.nick_database.get u with _ | du
      · simp [Overlay.fetch_bedwars_stats, Overlay.denick, hdef, hapi, hget,
          hu, hpd, Overlay.countDenickAttempts, Overlay.countStatsFetches,
          List.filter_append, List.filter]
      · rcases hpd2 : c.get_player_data du with _ | pd2 <;>
          simp [Overlay.fetch_bedwars_stats, Overlay.denick, hdef, hapi,
            hget, hu, hpd, hpd2, Overlay.countDenickAttempts,
            Overlay.countStatsFetches, List.filter_append, List.filter]
    · rcases hpd2 : c.get_player_data du with _ | pd2 <;>
        simp [Overlay.fetch_bedwars_stats, Overlay.denick, hdef, hapi, hu,
          hpd, hpd2, Overlay.countDenickAttempts, Overlay.countStatsFetches,
          List.filter_append, List.filter]
  · rcases hpd2 : c.get_player_data du with _ | pd2 <;>
      simp [Overlay.fetch_bedwars_stats, Overlay.denick, hdef, hu, hpd,
        hpd2, Overlay.countDenickAttempts, Overlay.countStatsFetches,
        List.filter_append, List.filter]

/-- Witness for C2: a Mojang hit with no Hypixel data and a successful
denick retry on a concrete controller. -/
theorem claim_C2_retry_denick_once_witness :
    Overlay.countDenickAttempts
        (Overlay.fetch_bedwars_stats "Steve"
          { Overlay.baseController with
              get_uuid := fun n => if n = "Steve" then some "u0" else none,
              nick_database := ⟨[("Steve", "u1")], []⟩ }).2 = 1 ∧
    Overlay.countStatsFetches
        (Overlay.fetch_bedwars_stats "Steve"
          { Overlay.baseController with
              get_uuid := fun n => if n = "Steve" then some "u0" else none,
              nick_database := ⟨[("Steve", "u1")], []⟩ }).2 = 2 ∧
    (Overlay.fetch_bedwars_stats "Steve"
        { Overlay.baseController with
            get_uuid := fun n => if n = "Steve" then some "u0" else none,
            nick_database := ⟨[("Steve", "u1")], []⟩ }).1
      = .nicked ⟨"Steve"⟩ := by
  have h := claim_C2_retry_denick_once "Steve" "u0"
    { Overlay.baseController with
        get_uuid := fun n => if n = "Steve" then some "u0" else none,
        nick_database := ⟨[("Steve", "u1")], []⟩ }
    (by decide) (by decide)
  have h2 := h.2.1 "u1" (by decide)
  exact ⟨h.1, h2.1, h2.2.2 (by decide)⟩

/-- C5: for every key whose cache entry is a Known or Nicked record (not
Pending or absent), `get_bedwars_stats` returns the cached record, leaves
the controller (in particular the cache) unchanged, and makes zero
provider calls. -/
theorem claim_C5_cache_hit_no_calls (u : String) (c : Overlay.Controller)
    (r : Overlay.CachedPlayer) (h : lookupKey c.player_cache u = some r) :
    (∀ p, r = .known p →
      Overlay.get_bedwars_stats u c = (.known p, c, [])) ∧
    (∀ p, r = .nicked p →
      Overlay.get_bedwars_stats u c = (.nicked p, c, [])) := by
  constructor
  · intro p hr
    subst hr
    simp [Overlay.get_bedwars_stats, h]
  · intro p hr
    subst hr
    simp [Overlay.get_bedwars_stats, h]

/-- Witness for C5: a concrete cached Known record is returned with no
provider calls and an unchanged controller. -/
theorem claim_C5_cache_hit_no_calls_witness :
    Overlay.get_bedwars_stats "Player1"
        { Overlay.baseController with
            player_cache :=
              [("Player1",
                 Overlay.CachedPlayer.known
                   ⟨"Player1", "u1", none, 10, 2, 1, some 5, true⟩)] }
      = (.known ⟨"Player1", "u1", none, 10, 2, 1, some 5, true⟩,
          { Overlay.baseController with
              player_cache :=
                [("Player1",
                   Overlay.CachedPlayer.known
                     ⟨"Player1", "u1", none, 10, 2, 1, some 5, true⟩)] },
          []) := by
  exact (claim_C5_cache_hit_no_calls "Player1" _
    (Overlay.CachedPlayer.known ⟨"Player1", "u1", none, 10, 2, 1, some 5, true⟩)
    (by decide)).1 _ rfl

theorem countWinstreakCalls_append (a b : List Overlay.Call) :
    Overlay.countWinstreakCalls (a ++ b)
      = Overlay.countWinstreakCalls a + Overlay.countWinstreakCalls b := by
  simp [Overlay.countWinstreakCalls, List.filter_append]

/-- Helper: the resolver itself never calls the winstreak estimator. -/
theorem fetch_no_winstreak_calls (u : String) (c : Overlay.Controller) :
    Overlay.countWinstreakCalls (Overlay.fetch_bedwars_stats u c).2 = 0 := by
  rcases hu : c.get_uuid u with _ | uuid
  · rcases hdef : c.nick_database.get_default u with _ | du
    · rcases hapi : c.denick_api u with _ | du
      · rcases hget : c.nick_database.get u with _ | du
        · simp [Overlay.fetch_bedwars_stats, Overlay.denick, hu, hdef, hapi,
            hget, Overlay.countWinstreakCalls, List.filter_append,
            List.filter]
        · rcases hpd2 : c.get_player_data du with _ | pd2 <;>
            simp [Overlay.fetch_bedwars_stats, Overlay.denick, hu, hdef,
              hapi, hget, hpd2, Overlay.countWinstreakCalls,
              List.filter_append, List.filter]
      · rcases hpd2 : c.get_player_data du with _ | pd2 <;>
          simp [Overlay.fetch_bedwars_stats, Overlay.denick, hu, hdef, hapi,
            hpd2, Overlay.countWinstreakCalls, List.filter_append,
            List.filter]
    · rcases hpd2 : c.get_player_data du with _ | pd2 <;>
        simp [Overlay.fetch_bedwars_stats, Overlay.denick, hu, hdef, hpd2,
          Overlay.countWinstreakCalls, List.filter_append, List.filter]
  · rcases hpd : c.get_player_data uuid with _ | pd
    · rcases hdef : c.nick_database.get_default u with _ | du
      · rcases hapi : c.denick_api u with _ | du
        · rcases hget : c.nick_database.get u with _ | du
          · simp [Overlay.fetch_bedwars_stats, Overlay.denick, hu, hpd,
              hdef, hapi, hget, Overlay.countWinstreakCalls,
              List.filter_append, List.filter]
          · rcases hpd2 : c.get_player_data du with _ | pd2 <;>
              simp [Overlay.fetch_bedwars_stats, Overlay.denick, hu, hpd,
                hdef, hapi, hget, hpd2, Overlay.countWinstreakCalls,
                List.filter_append, List.filter]
        · rcases hpd2 : c.get_player_data du with _ | pd2 <;>
            simp [Overlay.fetch_bedwars_stats, Overlay.denick, hu, hpd,
              hdef, hapi, hpd2, Overlay.countWinstreakCalls,
              List.filter_append, List.filter]
      · rcases hpd2 : c.get_player_data du with _ | pd2 <;>
          simp [Overlay.fetch_bedwars_stats, Overlay.denick, hu, hpd, hdef,
            hpd2, Overlay.countWinstreakCalls, List.filter_append,
            List.filter]
    · simp [Overlay.fetch_bedwars_stats, hu, hpd,
        Overlay.countWinstreakCalls, List.filter_append, List.filter]

/-- Helper: `get_bedwars_stats` never calls the winstreak estimator. -/
theorem get_no_winstreak_calls (u : String) (c : Overlay.Controller) :
    Overlay.countWinstreakCalls (Overlay.get_bedwars_stats u c).2.2 = 0 := by
  rcases hl : lookupKey c.player_cache u with _ | r
  · rcases hf : Overlay.fetch_bedwars_stats u c with ⟨pl, tr⟩
    have h0 := fetch_no_winstreak_calls u c
    rw [hf] at h0
    rcases pl with p | p <;>
      simpa [Overlay.get_bedwars_stats, hl, hf] using h0
  · rcases r with p | p | _
    · simp [Overlay.get_bedwars_stats, hl, Overlay.countWinstreakCalls]
    · simp [Overlay.get_bedwars_stats, hl, Overlay.countWinstreakCalls]
    · rcases hf : Overlay.fetch_bedwars_stats u c with ⟨pl, tr⟩
      have h0 := fetch_no_winstreak_calls u c
      rw [hf] at h0
      rcases pl with p | p <;>
        simpa [Overlay.get_bedwars_stats, hl, hf] using h0

/-- Helper: `get_bedwars_stats` never changes the winstreak-estimate
oracle of the controller. -/
theorem get_bedwars_stats_oracle_eq (u : String) (c : Overlay.Controller) :
    (Overlay.get_bedwars_stats u c).2.1.get_estimated_winstreaks
      = c.get_estimated_winstreaks := by
  rcases hl : lookupKey c.player_cache u with _ | r
  · rcases hf : Overlay.fetch_bedwars_stats u c with ⟨pl, tr⟩
    rcases pl with p | p <;> simp [Overlay.get_bedwars_stats, hl, hf]
  · rcases r with p | p | _
    · simp [Overlay.get_bedwars_stats, hl]
    · simp [Overlay.get_bedwars_stats, hl]
    · rcases hf : Overlay.fetch_bedwars_stats u c with ⟨pl, tr⟩
      rcases pl with p | p <;> simp [Overlay.get_bedwars_stats, hl, hf]

theorem lookup_update_cached_player_self
    (cache : List (String × Overlay.CachedPlayer)) (k : String)
    (f : Overlay.KnownPlayer → Overlay.KnownPlayer) :
    lookupKey (Overlay.update_cached_player cache k f) k
      = match lookupKey cache k with
        | some (.known p) => some (.known (f p))
        | x => x := by
  unfold Overlay.update_cached_player
  rcases h : lookupKey cache k with _ | r
  · simp [h]
  · rcases r with p | p | _ <;> simp [h, lookupKey_setKey_self]

theorem lookup_update_cached_player_ne
    (cache : List (String × Overlay.CachedPlayer)) (k k' : String)
    (f : Overlay.KnownPlayer → Overlay.KnownPlayer) (h : k ≠ k') :
    lookupKey (Overlay.update_cached_player cache k f) k'
      = lookupKey cache k' := by
  unfold Overlay.update_cached_player
  rcases hl : lookupKey cache k with _ | r
  · rfl
  · rcases r with p | p | _
    · exact lookupKey_setKey_ne _ _ _ _ h
    · rfl
    · rfl

/-- Helper: a Known result of `fetch_bedwars_stats` that carries a nick
was de-anonymized from the queried username, and its username is the
display name of the record the stats provider returned for its uuid. -/
theorem fetch_known_nick_origin (u : String) (c : Overlay.Controller)
    (p : Overlay.KnownPlayer)
    (hk : (Overlay.fetch_bedwars_stats u c).1 = .known p)
    (n : String) (hn : p.nick = some n) :
    n = u ∧ ∃ pd, c.get_player_data p.uuid = some pd ∧
      p.username = pd.displayname := by
  rcases hu : c.get_uuid u with _ | uuid
  · rcases hd : Overlay.denick u c with ⟨dres, dt⟩
    rcases dres with _ | uuid2
    · simp [Overlay.fetch_bedwars_stats, hu, hd] at hk
    · rcases hpd2 : c.get_player_data uuid2 with _ | pd2
      · simp [Overlay.fetch_bedwars_stats, hu, hd, hpd2] at hk
      · simp only [Overlay.fetch_bedwars_stats, hu, hd, hpd2] at hk
        simp only [Overlay.Player.known.injEq] at hk
        subst hk
        simp only [Overlay.create_known_player] at hn ⊢
        obtain rfl : u = n := by injection hn
        exact ⟨rfl, pd2, hpd2, rfl⟩
  · rcases hpd : c.get_player_data uuid with _ | pd
    · rcases hd : Overlay.denick u c with ⟨dres, dt⟩
      rcases dres with _ | uuid2
      · simp [Overlay.fetch_bedwars_stats, hu, hd, hpd] at hk
      · rcases hpd2 : c.get_player_data uuid2 with _ | pd2
        · simp [Overlay.fetch_bedwars_stats, hu, hd, hpd, hpd2] at hk
        · simp only [Overlay.fetch_bedwars_stats, hu, hd, hpd, hpd2] at hk
          simp only [Overlay.Player.known.injEq] at hk
          subst hk
          simp only [Overlay.create_known_player] at hn ⊢
          obtain rfl : u = n := by injection hn
          exact ⟨rfl, pd2, hpd2, rfl⟩
    · simp only [Overlay.fetch_bedwars_stats, hu, hpd] at hk
      simp only [Overlay.Player.known.injEq] at hk
      subst hk
      simp only [Overlay.create_known_player] at hn
      exact absurd hn (by simp)

/-- C4: for every username that resolves via de-anonymization (nick set)
from a cache miss, the returned Known record's username is the display
name returned by the stats provider, and after `get_bedwars_stats` the
cache holds the record with its nick cleared under that true username, in
addition to the full record under the queried nickname key. -/
theorem claim_C4_denick_alias_writethrough (u : String)
    (c : Overlay.Controller) (p : Overlay.KnownPlayer) (n : String)
    (hmiss : lookupKey c.player_cache u = none ∨
      lookupKey c.player_cache u = some .pending)
    (hk : (Overlay.fetch_bedwars_stats u c).1 = .known p)
    (hn : p.nick = some n) (hne : p.username ≠ u) :
    p.nick = some u ∧
    (∃ pd, c.get_player_data p.uuid = some pd ∧
      p.username = pd.displayname) ∧
    (Overlay.get_bedwars_stats u c).1 = .known p ∧
    lookupKey (Overlay.get_bedwars_stats u c).2.1.player_cache p.username
      = some (.known { p with nick := none }) ∧
    lookupKey (Overlay.get_bedwars_stats u c).2.1.player_cache u
      = some (.known p) := by
  obtain ⟨hnu, hpdisp⟩ := fetch_known_nick_origin u c p hk n hn
  rw [hnu] at hn
  rcases hf : Overlay.fetch_bedwars_stats u c with ⟨pl, tr⟩
  rw [hf] at hk
  have hpl : pl = .known p := hk
  subst hpl
  have hcache :
      (Overlay.get_bedwars_stats u c).2.1.player_cache
        = setKey
            (setKey c.player_cache p.username (.known { p with nick := none }))
            u (.known p) ∧
      (Overlay.get_bedwars_stats u c).1 = Overlay.Player.known p := by
    rcases hmiss with hm | hm <;>
      simp [Overlay.get_bedwars_stats, hm, hf, hn,
        Overlay.CachedPlayer.ofPlayer]
  refine ⟨hn, hpdisp, hcache.2, ?_, ?_⟩
  · rw [hcache.1,
      lookupKey_setKey_ne _ u p.username _ (fun h => hne h.symm),
      lookupKey_setKey_self]
  · rw [hcache.1, lookupKey_setKey_self]

/-- Witness for C4: the nick `AmazingNick` bound to `u1` in the default
table resolves to the provider record for `Player1`; the cache holds the
cleaned record under `Player1` and the full record under `AmazingNick`. -/
theorem claim_C4_denick_alias_writethrough_witness :
    (Overlay.get_bedwars_stats "AmazingNick"
        { Overlay.baseController with
            get_player_data :=
              fun id => if id = "u1" then some Overlay.demoPlayerData
                else none,
            nick_database := ⟨[("AmazingNick", "u1")], []⟩ }).1
      = .known ⟨"Player1", "u1", some "AmazingNick", 10, 2, 1, some 5,
          true⟩ ∧
    lookupKey
        (Overlay.get_bedwars_stats "AmazingNick"
          { Overlay.baseController with
              get_player_data :=
                fun id => if id = "u1" then some Overlay.demoPlayerData
                  else none,
              nick_database := ⟨[("AmazingNick", "u1")], []⟩ }).2.1.player_cache
        "Player1"
      = some (.known ⟨"Player1", "u1", none, 10, 2, 1, some 5, true⟩) ∧
    lookupKey
        (Overlay.get_bedwars_stats "AmazingNick"
          { Overlay.baseController with
              get_player_data :=
                fun id => if id = "u1" then some Overlay.demoPlayerData
                  else none,
              nick_database := ⟨[("AmazingNick", "u1")], []⟩ }).2.1.player_cache
        "AmazingNick"
      = some (.known ⟨"Player1", "u1", some "AmazingNick", 10, 2, 1, some 5,
          true⟩) := by
  have h := claim_C4_denick_alias_writethrough "AmazingNick"
    { Overlay.baseController with
        get_player_data :=
          fun id => if id = "u1" then some Overlay.demoPlayerData else none,
        nick_database := ⟨[("AmazingNick", "u1")], []⟩ }
    ⟨"Player1", "u1", some "AmazingNick", 10, 2, 1, some 5, true⟩
    "AmazingNick" (Or.inl (by decide)) (by decide) (by decide) (by decide)
  exact ⟨h.2.2.1, h.2.2.2.1, h.2.2.2.2⟩

/-- C7: for every `set_nickname` call rebinding a nickname to an identity
that already had a prior nickname binding, after the call the prior
nickname for that identity is gone from both the persisted `known_nicks`
table and the default nick-database table, the new nickname is present in
both mapped to the same uuid, and the cache entries under both the old
and the new nickname keys are invalidated. -/
theorem claim_C7_set_nickname_rebind (uname new_nick : String)
    (c : Overlay.Controller) (uuid : String) (old_nick : String)
    (old_val : Overlay.NickValue)
    (h1 : c.get_uuid uname = some uuid)
    (h2 : c.settings.known_nicks.find? (fun kv => kv.2.uuid = uuid)
        = some (old_nick, old_val))
    (h3 : old_nick ≠ new_nick) :
    lookupKey (Overlay.set_nickname (some uname) new_nick c).settings.known_nicks
        old_nick = none ∧
    (∃ v : Overlay.NickValue,
      lookupKey (Overlay.set_nickname (some uname) new_nick c).settings.known_nicks
          new_nick = some v ∧ v.uuid = uuid) ∧
    lookupKey
        (Overlay.set_nickname (some uname) new_nick c).nick_database.default_database
        old_nick = none ∧
    lookupKey
        (Overlay.set_nickname (some uname) new_nick c).nick_database.default_database
        new_nick = some uuid ∧
    lookupKey (Overlay.set_nickname (some uname) new_nick c).player_cache
        old_nick = none ∧
    lookupKey (Overlay.set_nickname (some uname) new_nick c).player_cache
        new_nick = none := by
  have hval : old_val.uuid = uuid := by
    have := List.find?_some h2
    exact of_decide_eq_true this
  have hne : new_nick ≠ old_nick := fun h => h3 h.symm
  simp only [Overlay.set_nickname, Overlay.uncache_player, h1, h2]
  refine ⟨?_, ⟨old_val, ?_, hval⟩, ?_, ?_, ?_, ?_⟩
  · rw [lookupKey_setKey_ne _ _ _ _ hne, lookupKey_removeKey_self]
  · rw [lookupKey_setKey_self]
  · rw [lookupKey_setKey_ne _ _ _ _ hne, lookupKey_removeKey_self]
  · rw [lookupKey_setKey_self]
  · rw [lookupKey_removeKey_ne _ _ _ hne, lookupKey_removeKey_self]
  · rw [lookupKey_removeKey_self]

/-- Witness for C7: rebinding identity `uuid1` from `OldNick` to
`NewNick` on a concrete controller. -/
theorem claim_C7_set_nickname_rebind_witness :
    (Overlay.Controller.get_uuid
        ⟨fun n => if n = "Player1" then some "uuid1" else none,
          fun _ => none, fun _ => none, fun _ => (none, false),
          [("OldNick", Overlay.CachedPlayer.pending),
            ("NewNick", Overlay.CachedPlayer.pending)],
          ⟨[("OldNick", "uuid1")], []⟩,
          ⟨"key", none, false, [("OldNick", ⟨"uuid1", "Player1"⟩)]⟩,
          "key", false, false⟩ "Player1" = some "uuid1") ∧
    (lookupKey
        (Overlay.set_nickname (some "Player1") "NewNick"
          ⟨fun n => if n = "Player1" then some "uuid1" else none,
            fun _ => none, fun _ => none, fun _ => (none, false),
            [("OldNick", Overlay.CachedPlayer.pending),
              ("NewNick", Overlay.CachedPlayer.pending)],
            ⟨[("OldNick", "uuid1")], []⟩,
            ⟨"key", none, false, [("OldNick", ⟨"uuid1", "Player1"⟩)]⟩,
            "key", false, false⟩).settings.known_nicks "OldNick" = none) ∧
    (lookupKey
        (Overlay.set_nickname (some "Player1") "NewNick"
          ⟨fun n => if n = "Player1" then some "uuid1" else none,
            fun _ => none, fun _ => none, fun _ => (none, false),
            [("OldNick", Overlay.CachedPlayer.pending),
              ("NewNick", Overlay.CachedPlayer.pending)],
            ⟨[("OldNick", "uuid1")], []⟩,
            ⟨"key", none, false, [("OldNick", ⟨"uuid1", "Player1"⟩)]⟩,
            "key", false, false⟩).nick_database.default_database "NewNick"
        = some "uuid1") := by
  refine ⟨by decide, ?_⟩
  have h := claim_C7_set_nickname_rebind "Player1" "NewNick"
    ⟨fun n => if n = "Player1" then some "uuid1" else none,
      fun _ => none, fun _ => none, fun _ => (none, false),
      [("OldNick", Overlay.CachedPlayer.pending),
        ("NewNick", Overlay.CachedPlayer.pending)],
      ⟨[("OldNick", "uuid1")], []⟩,
      ⟨"key", none, false, [("OldNick", ⟨"uuid1", "Player1"⟩)]⟩,
      "key", false, false⟩ "uuid1" "OldNick" ⟨"uuid1", "Player1"⟩
    (by decide) (by decide) (by decide)
  exact ⟨h.1, h.2.2.2.1⟩

/-- C9: a worker job whose resolved record is a Known player missing
winstreaks makes exactly one winstreak-estimate call (zero when the record
is Nicked or has winstreaks present); if the call fails the step is
skipped silently — the controller, and so every cache entry, is unchanged
and only the ordinary completion message is sent — while on success the
cached record under every alias of the player is updated with the
estimates and every other key is untouched. -/
theorem claim_C9_winstreak_enrichment (u : String)
    (c : Overlay.Controller) :
    (∀ p : Overlay.KnownPlayer,
      (Overlay.get_bedwars_stats u c).1 = .known p → p.winstreak = none →
      Overlay.countWinstreakCalls
          (Overlay.get_stats_and_winstreak u c).2.1 = 1 ∧
      (∀ acc, c.get_estimated_winstreaks p.uuid = (none, acc) →
        (Overlay.get_stats_and_winstreak u c).1
            = (Overlay.get_bedwars_stats u c).2.1 ∧
        (Overlay.get_stats_and_winstreak u c).2.2 = [u]) ∧
      (∀ w acc, c.get_estimated_winstreaks p.uuid = (some w, acc) →
        (∀ a, a ∈ p.aliases → ∀ q : Overlay.KnownPlayer,
          lookupKey (Overlay.get_bedwars_stats u c).2.1.player_cache a
              = some (.known q) →
          lookupKey (Overlay.get_stats_and_winstreak u c).1.player_cache a
            = some (.known (q.update_winstreaks (some w) acc))) ∧
        (∀ k, k ∉ p.aliases →
          lookupKey (Overlay.get_stats_and_winstreak u c).1.player_cache k
            = lookupKey
                (Overlay.get_bedwars_stats u c).2.1.player_cache k))) ∧
    (∀ p : Overlay.KnownPlayer, ∀ w0,
      (Overlay.get_bedwars_stats u c).1 = .known p →
      p.winstreak = some w0 →
      Overlay.countWinstreakCalls
          (Overlay.get_stats_and_winstreak u c).2.1 = 0 ∧
      (Overlay.get_stats_and_winstreak u c).1
        = (Overlay.get_bedwars_stats u c).2.1) ∧
    (∀ np, (Overlay.get_bedwars_stats u c).1 = .nicked np →
      Overlay.countWinstreakCalls
          (Overlay.get_stats_and_winstreak u c).2.1 = 0 ∧
      (Overlay.get_stats_and_winstreak u c).1
        = (Overlay.get_bedwars_stats u c).2.1) := by
  have horacle := get_bedwars_stats_oracle_eq u c
  have hws := get_no_winstreak_calls u c
  rcases hg : Overlay.get_bedwars_stats u c with ⟨pl, c1, tr⟩
  rw [hg] at horacle hws
  have horacle' : c1.get_estimated_winstreaks = c.get_estimated_winstreaks :=
    horacle
  have hws' : Overlay.countWinstreakCalls tr = 0 := hws
  have hws2 := hws'
  simp only [Overlay.countWinstreakCalls, List.length_eq_zero,
    List.filter_eq_nil_iff, Bool.not_eq_true] at hws2
  refine ⟨?_, ?_, ?_⟩
  · intro p hp hm
    have hpl : pl = .known p := hp
    subst hpl
    have hmiss : p.is_missing_winstreaks = true := by
      simp [Overlay.KnownPlayer.is_missing_winstreaks, hm]
    refine ⟨?_, ?_, ?_⟩
    · rcases hw : c.get_estimated_winstreaks p.uuid with ⟨e1, acc⟩
      have hw1 : c1.get_estimated_winstreaks p.uuid = (e1, acc) := by
        rw [horacle', hw]
      rcases e1 with _ | w0 <;>
        · simp [Overlay.get_stats_and_winstreak, hg, hmiss, hw1,
            countWinstreakCalls_append, Overlay.countWinstreakCalls,
            List.filter]
          intro a ha
          exact hws2 a ha
    · intro acc hw
      have hw1 : c1.get_estimated_winstreaks p.uuid = (none, acc) := by
        rw [horacle', hw]
      exact ⟨by simp [Overlay.get_stats_and_winstreak, hg, hmiss, hw1],
        by simp [Overlay.get_stats_and_winstreak, hg, hmiss, hw1]⟩
    · intro w acc hw
      have hw1 : c1.get_estimated_winstreaks p.uuid = (some w, acc) := by
        rw [horacle', hw]
      have hcache :
          (Overlay.get_stats_and_winstreak u c).1.player_cache
            = (p.aliases.foldl
                (fun cache a => Overlay.update_cached_player cache a
                  (fun q => q.update_winstreaks (some w) acc))
                c1.player_cache) := by
        simp [Overlay.get_stats_and_winstreak, hg, hmiss, hw1]
      rw [hcache]
      rcases hn : p.nick with _ | n
      · constructor
        · intro a ha q hq
          have hq' : lookupKey c1.player_cache a
              = some (Overlay.CachedPlayer.known q) := hq
          have hax : a = p.username := by
            simpa [Overlay.KnownPlayer.aliases, hn] using ha
          subst hax
          simp only [Overlay.KnownPlayer.aliases, hn, List.foldl]
          rw [lookup_update_cached_player_self, hq']
        · intro k hk
          have hkx : k ≠ p.username := fun h =>
            hk (by simp [Overlay.KnownPlayer.aliases, hn, h])
          simp only [Overlay.KnownPlayer.aliases, hn, List.foldl]
          exact lookup_update_cached_player_ne _ _ _ _
            (fun h => hkx h.symm)
      · constructor
        · intro a ha q hq
          have hq' : lookupKey c1.player_cache a
              = some (Overlay.CachedPlayer.known q) := hq
          have hax : a = p.username ∨ a = n := by
            simpa [Overlay.KnownPlayer.aliases, hn] using ha
          simp only [Overlay.KnownPlayer.aliases, hn, List.foldl]
          by_cases hxy : n = p.username
          · have ha1 : a = p.username := by
              rcases hax with h | h
              · exact h
              · rw [h, hxy]
            subst ha1
            rw [hxy, lookup_update_cached_player_self,
              lookup_update_cached_player_self, hq']
            simp [Overlay.KnownPlayer.update_winstreaks]
          · rcases hax with ha1 | ha1
            · rw [ha1] at hq' ⊢
              rw [lookup_update_cached_player_ne _ n p.username _
                  (fun h => hxy h),
                lookup_update_cached_player_self, hq']
            · rw [ha1] at hq' ⊢
              rw [lookup_update_cached_player_self,
                lookup_update_cached_player_ne _ p.username n _
                  (fun h => hxy h.symm), hq']
        · intro k hk
          have hk1 : k ≠ p.username := fun h =>
            hk (by simp [Overlay.KnownPlayer.aliases, hn, h])
          have hk2 : k ≠ n := fun h =>
            hk (by simp [Overlay.KnownPlayer.aliases, hn, h])
          simp only [Overlay.KnownPlayer.aliases, hn, List.foldl]
          rw [lookup_update_cached_player_ne _ n k _
              (fun h => hk2 h.symm),
            lookup_update_cached_player_ne _ p.username k _
              (fun h => hk1 h.symm)]
  · intro p w0 hp hm
    have hpl : pl = .known p := hp
    subst hpl
    have hmiss : p.is_missing_winstreaks = false := by
      simp [Overlay.KnownPlayer.is_missing_winstreaks, hm]
    constructor
    · simp [Overlay.get_stats_and_winstreak, hg, hmiss, hws']
    · simp [Overlay.get_stats_and_winstreak, hg, hmiss]
  · intro np hp
    have hpl : pl = .nicked np := hp
    subst hpl
    constructor
    · simp [Overlay.get_stats_and_winstreak, hg, hws']
    · simp [Overlay.get_stats_and_winstreak, hg]

/-- Witness for C9: the spec scenario — `Steve` has no identity hit, is
bound to `u1` in the default table, the provider reports an unknown
winstreak, and the estimator answers; exactly one estimate call is made
and both alias cache entries receive the estimate. -/
theorem claim_C9_winstreak_enrichment_witness :
    Overlay.countWinstreakCalls
        (Overlay.get_stats_and_winstreak "Steve"
          { Overlay.baseController with
              get_player_data :=
                fun id => if id = "u1" then
                  some ⟨"SteveTrue", 10, 2, 1, none⟩ else none,
              get_estimated_winstreaks := fun _ => (some 7, true),
              nick_database := ⟨[("Steve", "u1")], []⟩ }).2.1 = 1 ∧
    lookupKey
        (Overlay.get_stats_and_winstreak "Steve"
          { Overlay.baseController with
              get_player_data :=
                fun id => if id = "u1" then
                  some ⟨"SteveTrue", 10, 2, 1, none⟩ else none,
              get_estimated_winstreaks := fun _ => (some 7, true),
              nick_database := ⟨[("Steve", "u1")], []⟩ }).1.player_cache
        "SteveTrue"
      = some (.known ⟨"SteveTrue", "u1", none, 10, 2, 1, some 7, true⟩) ∧
    lookupKey
        (Overlay.get_stats_and_winstreak "Steve"
          { Overlay.baseController with
              get_player_data :=
                fun id => if id = "u1" then
                  some ⟨"SteveTrue", 10, 2, 1, none⟩ else none,
              get_estimated_winstreaks := fun _ => (some 7, true),
              nick_database := ⟨[("Steve", "u1")], []⟩ }).1.player_cache
        "Steve"
      = some (.known ⟨"SteveTrue", "u1", some "Steve", 10, 2, 1, some 7,
          true⟩) := by
  have h := (claim_C9_winstreak_enrichment "Steve"
    { Overlay.baseController with
        get_player_data :=
          fun id => if id = "u1" then
            some ⟨"SteveTrue", 10, 2, 1, none⟩ else none,
        get_estimated_winstreaks := fun _ => (some 7, true),
        nick_database := ⟨[("Steve", "u1")], []⟩ }).1
    ⟨"SteveTrue", "u1", some "Steve", 10, 2, 1, none, false⟩
    (by decide) (by decide)
  have hs := h.2.2 7 true (by decide)
  refine ⟨h.1, ?_, ?_⟩
  · exact hs.1 "SteveTrue" (by decide)
      ⟨"SteveTrue", "u1", none, 10, 2, 1, none, false⟩ (by decide)
  · exact hs.1 "Steve" (by decide)
      ⟨"SteveTrue", "u1", some "Steve", 10, 2, 1, none, false⟩ (by decide)

/-- C8 divergence witness: an `update_settings` call in which no
credential changed and the only difference is the *comment* of the
binding for `SomeNick` (same uuid) still invalidates the cache entry for
`SomeNick`, because the `uuid_changed` helper — documented as "True if
the uuid of the given nickname changed" — compares the whole nick value.
The claim (and the helper's own docstring) say only uuid rebinds count,
under which the entry should have been left untouched. -/
theorem claim_C8_comment_change_still_uncached :
    (Overlay.SettingsDict.hypixel_api_key
        ⟨"key", none, false, [("SomeNick", ⟨"u1", "new comment"⟩)]⟩
      = Overlay.Settings.hypixel_api_key
          ⟨"key", none, false, [("SomeNick", ⟨"u1", "old comment"⟩)]⟩) ∧
    (Overlay.SettingsDict.antisniper_api_key
        ⟨"key", none, false, [("SomeNick", ⟨"u1", "new comment"⟩)]⟩
      = Overlay.Settings.antisniper_api_key
          ⟨"key", none, false, [("SomeNick", ⟨"u1", "old comment"⟩)]⟩) ∧
    (Overlay.SettingsDict.use_antisniper_api
        ⟨"key", none, false, [("SomeNick", ⟨"u1", "new comment"⟩)]⟩
      = Overlay.Settings.use_antisniper_api
          ⟨"key", none, false, [("SomeNick", ⟨"u1", "old comment"⟩)]⟩) ∧
    ((lookupKey
        (Overlay.SettingsDict.known_nicks
          ⟨"key", none, false, [("SomeNick", ⟨"u1", "new comment"⟩)]⟩)
        "SomeNick").map Overlay.NickValue.uuid
      = (lookupKey
          (Overlay.Settings.known_nicks
            ⟨"key", none, false, [("SomeNick", ⟨"u1", "old comment"⟩)]⟩)
          "SomeNick").map Overlay.NickValue.uuid) ∧
    lookupKey
        (Overlay.Controller.player_cache
          { Overlay.baseController with
              settings :=
                ⟨"key", none, false,
                  [("SomeNick", ⟨"u1", "old comment"⟩)]⟩,
              player_cache :=
                [("SomeNick", Overlay.CachedPlayer.nicked ⟨"SomeNick"⟩)] })
        "SomeNick"
      = some (Overlay.CachedPlayer.nicked ⟨"SomeNick"⟩) ∧
    lookupKey
        (Overlay.update_settings
          ⟨"key", none, false, [("SomeNick", ⟨"u1", "new comment"⟩)]⟩
          { Overlay.baseController with
              settings :=
                ⟨"key", none, false,
                  [("SomeNick", ⟨"u1", "old comment"⟩)]⟩,
              player_cache :=
                [("SomeNick", Overlay.CachedPlayer.nicked ⟨"SomeNick"⟩)] }).player_cache
        "SomeNick"
      = none := by
  refine ⟨rfl, rfl, rfl, by decide, by decide, by decide⟩

end Prism
